import Mathlib

/-!
# Verification of the preview-server CLI data-movement core

Shallow embedding of the upload/download client of the `preview-server`
CLI (Go package `client`, plus the push/pull commands), covering:

* `doRequest` — the authenticated HTTP helper that terminates the process
  on a 401 response;
* `uploadOneChunk` — one multipart chunk request (does *not* go through
  `doRequest`);
* the per-chunk retry loop and the chunk loop of `uploadChunked`;
* `UploadBaseFileChunked` — staging to a temp file and the single-request
  versus chunked decision at the 50 MiB threshold;
* `uploadSingleWithProgress` — the single-request upload path;
* `DownloadStream` and the `pull db` command's cleanup of the destination
  file on failure;
* the wait phase of `generateAndUploadDB` (compressor then producer).

Network interaction is modelled by an oracle (`Server` / `ReqResult`)
giving the response of each request, and each operation returns the list
of observable events (requests issued, sleeps performed) together with
its outcome.  `os.Exit` is modelled as the `DoResult.exit` outcome.
Reads from local files that have just been written (the staged temp
file) are assumed to succeed; staging itself can fail
(`StagingOutcome`).
-/

/-- Byte strings are lists of bytes (values 0–255 are not constrained;
the payload content is opaque to the client). -/
abbrev Bytes := List Nat

/-- Result of one HTTP request as seen by the client: either the
transport failed (`net/http` returned an error) or a response with a
status code and a body arrived. -/
inductive ReqResult where
  | netErr : ReqResult
  | resp (status : Nat) (body : Bytes) : ReqResult
deriving DecidableEq

/-- The Go `error` values produced by the client code, one constructor
per `fmt.Errorf` site (wrapped causes kept as sub-errors). -/
inductive GoErr where
  /-- a transport-level error from `http.Client.Do` -/
  | netErr : GoErr
  /-- an external process exited with a non-zero status (`exec.ExitError`) -/
  | exitStatus (code : Nat) : GoErr
  /-- `"HTTP %d: %s"` -/
  | httpErr (status : Nat) (body : Bytes) : GoErr
  /-- `"request failed: %w"` -/
  | requestFailed (e : GoErr) : GoErr
  /-- `"chunked init failed: %w"` -/
  | initFailed (e : GoErr) : GoErr
  /-- `"chunked init HTTP %d: %s"` -/
  | initHTTP (status : Nat) (body : Bytes) : GoErr
  /-- `"chunk %d failed after 3 attempts: %w"` -/
  | chunkFailed (index attempts : Nat) (e : GoErr) : GoErr
  /-- `"chunked complete failed: %w"` -/
  | completeFailed (e : GoErr) : GoErr
  /-- `"chunked complete HTTP %d: %s"` -/
  | completeHTTP (status : Nat) (body : Bytes) : GoErr
  /-- `"upload failed: %w"` -/
  | uploadFailed (e : GoErr) : GoErr
  /-- `"failed to create temp file: %w"` -/
  | tempCreateFailed : GoErr
  /-- `"failed to buffer upload: %w"` -/
  | bufferFailed : GoErr
  /-- `"%s failed: %w"` for the compressor stage (gzip/pigz) -/
  | compressorFailed (e : GoErr) : GoErr
  /-- `"drush sql-dump failed: %w"` -/
  | drushFailed (e : GoErr) : GoErr
  /-- `"cannot create file: %w"` (pull command, `os.Create`) -/
  | createFileFailed : GoErr
deriving DecidableEq

/-- Outcome of a client operation: normal return value, a returned Go
error, or process termination via `os.Exit code`. -/
inductive DoResult (α : Type) where
  | ok (a : α) : DoResult α
  | err (e : GoErr) : DoResult α
  | exit (code : Nat) : DoResult α
deriving DecidableEq

/-- Observable events of an upload/download run: each network request
issued and each sleep performed.  `chunkReq` records the multipart
fields `upload_id` and `chunk_index`, the (0-based) attempt on which it
was sent, and the payload bytes. -/
inductive Event where
  | initReq (totalChunks totalSize : Nat) : Event
  | chunkReq (uploadID : String) (index attempt : Nat) (payload : Bytes) : Event
  | completeReq (uploadID : String) : Event
  | singleReq (payload : Bytes) : Event
  | sleep (seconds : Nat) : Event
deriving DecidableEq

/-- The remote endpoint as an oracle: the response to the `init` call,
the decoded `upload_id` of the init response body (`none` models a body
that fails to decode or lacks the field — the Go code discards the
decode error), the response to each chunk request (by chunk index and
attempt number), and the response to the `complete` call. -/
structure Server where
  initResult : ReqResult
  initUploadID : Option String
  chunkResult : Nat → Nat → ReqResult
  completeResult : ReqResult

/-- `const chunkSize = 50 * 1024 * 1024 // 50MB` -/
def chunkSize : Nat := 50 * 1024 * 1024

/-- `Client.doRequest`: perform a request; on a transport error return
it; on a 401 response print guidance and `os.Exit(1)`; otherwise return
the response (status, body). -/
def doRequest (r : ReqResult) : DoResult (Nat × Bytes) :=
  match r with
  | .netErr => .err .netErr
  | .resp s b => if s = 401 then .exit 1 else .ok (s, b)

/-- `Client.uploadOneChunk`: send one multipart chunk request (directly
via `HTTPClient.Do`, *not* via `doRequest`); a transport error is
returned as-is, any non-200 status (including 401) becomes the generic
`"HTTP %d: %s"` error, a 200 response is success (`nil`). -/
def uploadOneChunk (r : ReqResult) : Option GoErr :=
  match r with
  | .netErr => some .netErr
  | .resp s b => if s = 200 then none else some (.httpErr s b)

/-- The per-chunk retry loop of `uploadChunked`
(`for attempt := 0; attempt < 3; attempt++`): before every attempt but
the first, sleep `time.Duration(1<<uint(attempt)) * 2` seconds, then
perform the attempt; break on success; `remaining` counts the loop
iterations left (started at 3) and `uploadErr` is the loop variable
holding the last attempt's error. -/
def retryLoopGo (res : Nat → Option GoErr) (ev : Nat → Event) :
    Nat → Nat → Option GoErr → List Event × Option GoErr
  | 0, _, uploadErr => ([], uploadErr)
  | remaining + 1, attempt, _ =>
    let pre : List Event := if 0 < attempt then [Event.sleep (2 ^ attempt * 2)] else []
    match res attempt with
    | none => (pre ++ [ev attempt], none)
    | some e =>
      let rest := retryLoopGo res ev remaining (attempt + 1) (some e)
      (pre ++ [ev attempt] ++ rest.1, rest.2)

/-- The retry loop entered with 3 iterations available, at attempt 0,
with `uploadErr` initially `nil`. -/
def chunkRetry (res : Nat → Option GoErr) (ev : Nat → Event) :
    List Event × Option GoErr :=
  retryLoopGo res ev 3 0 none

/-- `totalChunks := int((totalSize + chunkSize - 1) / chunkSize)` -/
def totalChunksOf (totalSize : Nat) : Nat := (totalSize + chunkSize - 1) / chunkSize

/-- The chunk loop of `uploadChunked` over the list of chunk indices
(`for i := 0; i < totalChunks; i++`): read the next `chunkSize` bytes of
the staged file, run the retry loop for that chunk, abort with
`"chunk %d failed after 3 attempts: %w"` if the retry loop ends with an
error, otherwise continue with the next index. -/
def chunkLoopFrom (srv : Server) (uploadID : String) (file : Bytes) :
    List Nat → List Event × Option GoErr
  | [] => ([], none)
  | i :: rest =>
    match chunkRetry (fun a => uploadOneChunk (srv.chunkResult i a))
        (fun a => Event.chunkReq uploadID i a
          ((file.drop (i * chunkSize)).take chunkSize)) with
    | (tr, some e) => (tr, some (.chunkFailed i 3 e))
    | (tr, none) =>
      (tr ++ (chunkLoopFrom srv uploadID file rest).1,
        (chunkLoopFrom srv uploadID file rest).2)

/-- `Client.uploadChunked`: compute `totalChunks`, `POST …/upload/init`
via `doRequest` (abort on error or non-200), decode the `upload_id`
discarding any decode error (missing/undecodable becomes the zero value
`""`), run the chunk loop, then `POST …/upload/complete` via
`doRequest` (abort on error or non-200). -/
def uploadChunked (srv : Server) (file : Bytes) : List Event × DoResult Unit :=
  match doRequest srv.initResult with
  | .exit c => ([Event.initReq (totalChunksOf file.length) file.length], .exit c)
  | .err e => ([Event.initReq (totalChunksOf file.length) file.length], .err (.initFailed e))
  | .ok (status, body) =>
    if status ≠ 200 then
      ([Event.initReq (totalChunksOf file.length) file.length], .err (.initHTTP status body))
    else
      match chunkLoopFrom srv (srv.initUploadID.getD "") file
          (List.range (totalChunksOf file.length)) with
      | (tr, some e) =>
        (Event.initReq (totalChunksOf file.length) file.length :: tr, .err e)
      | (tr, none) =>
        match doRequest srv.completeResult with
        | .exit c =>
          (Event.initReq (totalChunksOf file.length) file.length ::
            (tr ++ [Event.completeReq (srv.initUploadID.getD "")]), .exit c)
        | .err e =>
          (Event.initReq (totalChunksOf file.length) file.length ::
            (tr ++ [Event.completeReq (srv.initUploadID.getD "")]), .err (.completeFailed e))
        | .ok (s2, b2) =>
          if s2 ≠ 200 then
            (Event.initReq (totalChunksOf file.length) file.length ::
              (tr ++ [Event.completeReq (srv.initUploadID.getD "")]),
              .err (.completeHTTP s2 b2))
          else
            (Event.initReq (totalChunksOf file.length) file.length ::
              (tr ++ [Event.completeReq (srv.initUploadID.getD "")]), .ok ())

/-- `Client.uploadSingleWithProgress`: send the staged file as one
multipart request; a transport error becomes `"upload failed: %w"`, a
401 response terminates the process, any other non-200 status becomes
the generic HTTP error. -/
def uploadSingleWithProgress (res : ReqResult) (file : Bytes) :
    List Event × DoResult Unit :=
  ([Event.singleReq file],
    match res with
    | .netErr => .err (.uploadFailed .netErr)
    | .resp s b =>
      if s = 401 then .exit 1
      else if s ≠ 200 then .err (.httpErr s b)
      else .ok ())

/-- Outcome of staging the input stream to the temp file:
`os.CreateTemp` may fail, the `io.Copy` may fail (disk full), or the
whole stream is materialized as `file`. -/
inductive StagingOutcome where
  | createFail : StagingOutcome
  | copyFail : StagingOutcome
  | ok (file : Bytes) : StagingOutcome

/-- `Client.UploadBaseFileChunked`: stage the reader to a temp file
(aborting on a staging failure), then use the single-request path when
the staged size is `< chunkSize` and the chunked path otherwise. -/
def UploadBaseFileChunked (srv : Server) (singleRes : ReqResult)
    (staging : StagingOutcome) : List Event × DoResult Unit :=
  match staging with
  | .createFail => ([], .err .tempCreateFailed)
  | .copyFail => ([], .err .bufferFailed)
  | .ok file =>
    if file.length < chunkSize then uploadSingleWithProgress singleRes file
    else uploadChunked srv file

/-- `Client.DownloadStream`: GET the download endpoint via `doRequest`;
on a non-200 response fail with the `"HTTP %d: %s"` error writing
nothing to the sink; on 200 copy the body to the sink.  The first
component is the bytes written to `w`. -/
def DownloadStream (r : ReqResult) : Bytes × DoResult Unit :=
  match doRequest r with
  | .exit c => ([], .exit c)
  | .err e => ([], .err (.requestFailed e))
  | .ok (s, b) =>
    if s ≠ 200 then ([], .err (.httpErr s b))
    else (b, .ok ())

/-- State of the destination path on the local filesystem. -/
inductive FsState where
  | absent : FsState
  | present (content : Bytes) : FsState
deriving DecidableEq

/-- The body of the `pull db` command after the output name is chosen:
`os.Create` the destination (modelled by `createOk`), run
`DownloadStream` into it, and on a returned error `os.Remove` the
destination.  `os.Exit` (raised inside `doRequest` on a 401) terminates
the process with the file left in whatever state it is in — deferred
closes do not run and no removal happens. -/
def pullDBCmd (createOk : Bool) (dl : ReqResult) : FsState × DoResult Unit :=
  if !createOk then (.absent, .err .createFileFailed)
  else
    match DownloadStream dl with
    | (written, .exit c) => (.present written, .exit c)
    | (_, .err e) => (.absent, .err e)
    | (written, .ok _) => (.present written, .ok ())

/-- The two upstream stages of the `push db` pipeline. -/
inductive Stage where
  | compressor : Stage
  | drush : Stage
deriving DecidableEq

/-- The tail of `generateAndUploadDB` after the stages were started:
the upload result is checked first (returning `"upload failed: %w"`),
then `compressor.Wait()` — returning `"%s failed: %w"` on error without
waiting on drush — then `drush.Wait()`, returning
`"drush sql-dump failed: %w"` on error.  The first component lists the
stages that were actually waited on, in order. -/
def generateAndUploadDBWaits (uploadErr compressorErr drushErr : Option GoErr) :
    List Stage × Option GoErr :=
  match uploadErr with
  | some e => ([], some (.uploadFailed e))
  | none =>
    match compressorErr with
    | some e => ([.compressor], some (.compressorFailed e))
    | none =>
      match drushErr with
      | some e => ([.compressor, .drush], some (.drushFailed e))
      | none => ([.compressor, .drush], none)

/-- Is this event a sleep? -/
def Event.isSleep : Event → Bool
  | .sleep _ => true
  | _ => false

/-- The durations (in seconds) of the sleeps in a trace, in order. -/
def sleepsOf (tr : List Event) : List Nat :=
  tr.filterMap fun e => match e with | .sleep s => some s | _ => none

/-- The chunk payloads the chunk loop reads, in index order: chunk `i`
is bytes `i*chunkSize` to `i*chunkSize + chunkSize` (exclusive, clipped
at the end of the staged file). -/
def chunkPayloads (file : Bytes) : List Bytes :=
  (List.range (totalChunksOf file.length)).map
    fun i => (file.drop (i * chunkSize)).take chunkSize

/-- Does the server fail chunk `i` on all three attempts? -/
def allFail (srv : Server) (i : Nat) : Bool :=
  (uploadOneChunk (srv.chunkResult i 0)).isSome
    && (uploadOneChunk (srv.chunkResult i 1)).isSome
    && (uploadOneChunk (srv.chunkResult i 2)).isSome

/-- Per-attempt outcomes of a chunk whose first two attempts fail with a
transport error and whose third attempt succeeds. -/
def resFailTwice : Nat → Option GoErr :=
  fun a => if a < 2 then some .netErr else none

/-- A server that accepts every request. -/
def srvOK : Server :=
  ⟨.resp 200 [], some "id1", fun _ _ => .resp 200 [], .resp 200 []⟩

/-- A server whose chunk endpoint always answers with status 500. -/
def srv500 : Server :=
  ⟨.resp 200 [], some "id1", fun _ _ => .resp 500 [7], .resp 200 []⟩

/-- A server whose chunk endpoint always answers with status 401. -/
def srv401 : Server :=
  ⟨.resp 200 [], some "id1", fun _ _ => .resp 401 [9], .resp 200 []⟩

/-- A server whose init response body does not decode to an upload id. -/
def srvNoID : Server :=
  ⟨.resp 200 [], none, fun _ _ => .resp 200 [], .resp 200 []⟩

/-- Is this event a chunk upload request? -/
def Event.isChunkReq : Event → Bool
  | .chunkReq _ _ _ _ => true
  | _ => false

theorem chunkRetry_shape (res : Nat → Option GoErr) (ev : Nat → Event) :
    chunkRetry res ev =
      match res 0, res 1, res 2 with
      | none, _, _ => ([ev 0], none)
      | some _, none, _ => ([ev 0, .sleep 4, ev 1], none)
      | some _, some _, none => ([ev 0, .sleep 4, ev 1, .sleep 8, ev 2], none)
      | some _, some _, some e2 => ([ev 0, .sleep 4, ev 1, .sleep 8, ev 2], some e2) := by
  rcases h0 : res 0 with _ | e0 <;> rcases h1 : res 1 with _ | e1 <;>
    rcases h2 : res 2 with _ | e2 <;>
    simp [chunkRetry, retryLoopGo, h0, h1, h2]

theorem chunkRetry_events_sub (res : Nat → Option GoErr) (ev : Nat → Event) :
    (chunkRetry res ev).1 ⊆ [ev 0, Event.sleep 4, ev 1, Event.sleep 8, ev 2] := by
  rw [chunkRetry_shape]
  rcases res 0 with _ | e0 <;> rcases res 1 with _ | e1 <;> rcases res 2 with _ | e2 <;>
    intro x hx <;> simp at hx ⊢ <;> tauto

theorem chunkRetry_none_of_not_allFail (srv : Server) (i : Nat)
    (h : allFail srv i = false) (ev : Nat → Event) :
    (chunkRetry (fun a => uploadOneChunk (srv.chunkResult i a)) ev).2 = none := by
  rw [chunkRetry_shape]
  rcases h0 : uploadOneChunk (srv.chunkResult i 0) with _ | e0 <;>
    rcases h1 : uploadOneChunk (srv.chunkResult i 1) with _ | e1 <;>
      rcases h2 : uploadOneChunk (srv.chunkResult i 2) with _ | e2 <;>
        simp_all [allFail]

theorem chunkRetry_some_of_allFail (srv : Server) (i : Nat)
    (h : allFail srv i = true) (ev : Nat → Event) :
    ∃ e, (chunkRetry (fun a => uploadOneChunk (srv.chunkResult i a)) ev).2 = some e := by
  rw [chunkRetry_shape]
  simp only [allFail, Bool.and_eq_true, Option.isSome_iff_exists] at h
  obtain ⟨⟨⟨e0, h0⟩, e1, h1⟩, e2, h2⟩ := h
  exact ⟨e2, by simp [h0, h1, h2]⟩

theorem chunkLoopFrom_events (srv : Server) (uploadID : String) (file : Bytes)
    (is : List Nat) :
    ∀ e' ∈ (chunkLoopFrom srv uploadID file is).1,
      (∃ s, e' = Event.sleep s) ∨
      ∃ i a, i ∈ is ∧ a < 3 ∧
        e' = Event.chunkReq uploadID i a ((file.drop (i * chunkSize)).take chunkSize) := by
  induction is with
  | nil => simp [chunkLoopFrom]
  | cons i rest ih =>
    intro e' h
    rcases hr : chunkRetry (fun a => uploadOneChunk (srv.chunkResult i a))
        (fun a => Event.chunkReq uploadID i a
          ((file.drop (i * chunkSize)).take chunkSize)) with ⟨tr, r⟩
    have hmem : e' ∈ tr ∨ e' ∈ (chunkLoopFrom srv uploadID file rest).1 := by
      rcases r with _ | e
      · simp only [chunkLoopFrom, hr, List.mem_append] at h
        exact h
      · simp only [chunkLoopFrom, hr] at h
        exact Or.inl h
    rcases hmem with hm | hm
    · have hsub := chunkRetry_events_sub (fun a => uploadOneChunk (srv.chunkResult i a))
        (fun a => Event.chunkReq uploadID i a ((file.drop (i * chunkSize)).take chunkSize))
      rw [hr] at hsub
      have h5 := hsub hm
      simp only [List.mem_cons, List.mem_singleton] at h5
      rcases h5 with rfl | rfl | rfl | rfl | h5
      · exact Or.inr ⟨i, 0, by simp, by norm_num, rfl⟩
      · exact Or.inl ⟨4, rfl⟩
      · exact Or.inr ⟨i, 1, by simp, by norm_num, rfl⟩
      · exact Or.inl ⟨8, rfl⟩
      · rcases h5 with rfl | h5
        · exact Or.inr ⟨i, 2, by simp, by norm_num, rfl⟩
        · simp at h5
    · rcases ih e' hm with hs | ⟨i', a, hi, ha, he⟩
      · exact Or.inl hs
      · exact Or.inr ⟨i', a, by simp [hi], ha, he⟩

theorem chunkLoopFrom_err (srv : Server) (uploadID : String) (file : Bytes)
    (is : List Nat) :
    (chunkLoopFrom srv uploadID file is).2 = none ∨
    ∃ j e, j ∈ is ∧ (chunkLoopFrom srv uploadID file is).2 = some (.chunkFailed j 3 e) := by
  induction is with
  | nil => exact Or.inl rfl
  | cons i rest ih =>
    rcases hr : chunkRetry (fun a => uploadOneChunk (srv.chunkResult i a))
        (fun a => Event.chunkReq uploadID i a
          ((file.drop (i * chunkSize)).take chunkSize)) with ⟨tr, _ | e⟩
    · rcases ih with h | ⟨j, e, hj, he⟩
      · exact Or.inl (by simp only [chunkLoopFrom, hr]; exact h)
      · exact Or.inr ⟨j, e, by simp [hj], by simp only [chunkLoopFrom, hr]; exact he⟩
    · exact Or.inr ⟨i, e, by simp, by simp only [chunkLoopFrom, hr]⟩

theorem chunkLoopFrom_firstFail (srv : Server) (uploadID : String) (file : Bytes) :
    ∀ (pre : List Nat) (j : Nat) (post : List Nat),
      (∀ i ∈ pre, allFail srv i = false) → allFail srv j = true →
      ∃ e, (chunkLoopFrom srv uploadID file (pre ++ j :: post)).2 =
        some (.chunkFailed j 3 e) := by
  intro pre
  induction pre with
  | nil =>
    intro j post _ hj
    obtain ⟨e, he⟩ := chunkRetry_some_of_allFail srv j hj
      (fun a => Event.chunkReq uploadID j a ((file.drop (j * chunkSize)).take chunkSize))
    rcases hp : chunkRetry (fun a => uploadOneChunk (srv.chunkResult j a))
        (fun a => Event.chunkReq uploadID j a
          ((file.drop (j * chunkSize)).take chunkSize)) with ⟨tr, r⟩
    rw [hp] at he
    subst he
    exact ⟨e, by simp only [List.nil_append, chunkLoopFrom, hp]⟩
  | cons i rest ih =>
    intro j post hpre hj
    have hi : allFail srv i = false := hpre i (by simp)
    have hr := chunkRetry_none_of_not_allFail srv i hi
      (fun a => Event.chunkReq uploadID i a ((file.drop (i * chunkSize)).take chunkSize))
    rcases hp : chunkRetry (fun a => uploadOneChunk (srv.chunkResult i a))
        (fun a => Event.chunkReq uploadID i a
          ((file.drop (i * chunkSize)).take chunkSize)) with ⟨tr, r⟩
    rw [hp] at hr
    subst hr
    obtain ⟨e, he⟩ := ih j post (fun i' hi' => hpre i' (by simp [hi'])) hj
    exact ⟨e, by simp only [List.cons_append, chunkLoopFrom, hp]; exact he⟩

theorem totalChunks_bounds (S : Nat) (hS : 1 ≤ S) :
    chunkSize * (totalChunksOf S - 1) < S ∧ S ≤ chunkSize * totalChunksOf S := by
  have hc : 0 < chunkSize := by norm_num [chunkSize]
  have h1 : S + chunkSize - 1 = (S - 1) + chunkSize := by omega
  have h2 : totalChunksOf S = (S - 1) / chunkSize + 1 := by
    rw [totalChunksOf, h1, Nat.add_div_right _ hc]
  have h3 := Nat.div_add_mod (S - 1) chunkSize
  have h4 : (S - 1) % chunkSize < chunkSize := Nat.mod_lt _ hc
  rw [h2, Nat.add_sub_cancel, Nat.mul_add, Nat.mul_one]
  generalize chunkSize * ((S - 1) / chunkSize) = p at h3 ⊢
  omega

theorem flatten_chunks (c : Nat) :
    ∀ (n : Nat) (file : Bytes), file.length ≤ n * c →
      (((List.range n).map fun i => (file.drop (i * c)).take c)).flatten = file := by
  intro n
  induction n with
  | zero =>
    intro file h
    simp only [Nat.zero_mul, Nat.le_zero, List.length_eq_zero] at h
    simp [h]
  | succ n ih =>
    intro file h
    rw [List.range_succ_eq_map]
    simp only [List.map_cons, List.map_map, List.flatten_cons, Nat.zero_mul,
      List.drop_zero, Function.comp_def]
    have hrw : ((List.range n).map fun i => (file.drop ((i + 1) * c)).take c) =
        (List.range n).map fun i => ((file.drop c).drop (i * c)).take c := by
      apply List.map_congr_left
      intro i _
      rw [List.drop_drop, Nat.succ_mul, Nat.add_comm (i * c) c, Nat.add_comm c (i * c)]
    rw [Nat.succ_mul] at h
    rw [hrw, ih (file.drop c) (by simp only [List.length_drop]; omega)]
    exact List.take_append_drop c file

theorem uploadChunked_head (srv : Server) (file : Bytes) :
    (uploadChunked srv file).1.head? =
      some (Event.initReq (totalChunksOf file.length) file.length) := by
  unfold uploadChunked
  split
  · rfl
  · rfl
  · split
    · rfl
    · split
      · rfl
      · split
        · rfl
        · rfl
        · split
          · rfl
          · rfl

theorem uploadChunked_events (srv : Server) (file : Bytes) :
    ∀ e' ∈ (uploadChunked srv file).1,
      e' = Event.initReq (totalChunksOf file.length) file.length ∨
      e' = Event.completeReq (srv.initUploadID.getD "") ∨
      (∃ s, e' = Event.sleep s) ∨
      ∃ i a, i < totalChunksOf file.length ∧ a < 3 ∧
        e' = Event.chunkReq (srv.initUploadID.getD "") i a
          ((file.drop (i * chunkSize)).take chunkSize) := by
  have loopCase : ∀ tr r, chunkLoopFrom srv (srv.initUploadID.getD "") file
      (List.range (totalChunksOf file.length)) = (tr, r) →
      ∀ e' ∈ tr,
      (∃ s, e' = Event.sleep s) ∨
      ∃ i a, i < totalChunksOf file.length ∧ a < 3 ∧
        e' = Event.chunkReq (srv.initUploadID.getD "") i a
          ((file.drop (i * chunkSize)).take chunkSize) := by
    intro tr r htr e' hm
    have hm' : e' ∈ (chunkLoopFrom srv (srv.initUploadID.getD "") file
        (List.range (totalChunksOf file.length))).1 := by rw [htr]; exact hm
    rcases chunkLoopFrom_events srv _ file _ e' hm' with hs | ⟨i, a, hi, ha, hev⟩
    · exact Or.inl hs
    · exact Or.inr ⟨i, a, List.mem_range.mp hi, ha, hev⟩
  intro e' he
  unfold uploadChunked at he
  split at he
  · simp only [List.mem_singleton] at he
    exact Or.inl he
  · simp only [List.mem_singleton] at he
    exact Or.inl he
  · split at he
    · simp only [List.mem_singleton] at he
      exact Or.inl he
    · split at he
      case _ tr e htr =>
        simp only [List.mem_cons] at he
        rcases he with rfl | hm
        · exact Or.inl rfl
        · exact Or.inr (Or.inr (loopCase tr _ htr e' hm))
      case _ tr htr =>
        have he' : e' ∈ Event.initReq (totalChunksOf file.length) file.length ::
            (tr ++ [Event.completeReq (srv.initUploadID.getD "")]) := by
          split at he
          · exact he
          · exact he
          · split at he
            · exact he
            · exact he
        rcases List.mem_cons.mp he' with rfl | hm
        · exact Or.inl rfl
        · rcases List.mem_append.mp hm with hm2 | hm2
          · exact Or.inr (Or.inr (loopCase tr _ htr e' hm2))
          · rcases List.mem_singleton.mp hm2 with rfl
            exact Or.inr (Or.inl rfl)

theorem uploadChunked_eq_of_loopErr (srv : Server) (file : Bytes) (b : Bytes)
    (tr : List Event) (e : GoErr)
    (hinit : srv.initResult = .resp 200 b)
    (hp : chunkLoopFrom srv (srv.initUploadID.getD "") file
      (List.range (totalChunksOf file.length)) = (tr, some e)) :
    uploadChunked srv file =
      (Event.initReq (totalChunksOf file.length) file.length :: tr, .err e) := by
  have hdo : doRequest srv.initResult = .ok (200, b) := by rw [hinit]; rfl
  unfold uploadChunked
  rw [hdo, hp]; rfl

theorem uploadChunked_eq_of_completeExit (srv : Server) (file : Bytes) (b : Bytes)
    (tr : List Event) (c : Nat)
    (hinit : srv.initResult = .resp 200 b)
    (hp : chunkLoopFrom srv (srv.initUploadID.getD "") file
      (List.range (totalChunksOf file.length)) = (tr, none))
    (hc : doRequest srv.completeResult = .exit c) :
    uploadChunked srv file =
      (Event.initReq (totalChunksOf file.length) file.length ::
        (tr ++ [Event.completeReq (srv.initUploadID.getD "")]), .exit c) := by
  have hdo : doRequest srv.initResult = .ok (200, b) := by rw [hinit]; rfl
  unfold uploadChunked
  rw [hdo, hp, hc]; rfl

theorem uploadChunked_eq_of_completeErr (srv : Server) (file : Bytes) (b : Bytes)
    (tr : List Event) (e : GoErr)
    (hinit : srv.initResult = .resp 200 b)
    (hp : chunkLoopFrom srv (srv.initUploadID.getD "") file
      (List.range (totalChunksOf file.length)) = (tr, none))
    (hc : doRequest srv.completeResult = .err e) :
    uploadChunked srv file =
      (Event.initReq (totalChunksOf file.length) file.length ::
        (tr ++ [Event.completeReq (srv.initUploadID.getD "")]),
        .err (.completeFailed e)) := by
  have hdo : doRequest srv.initResult = .ok (200, b) := by rw [hinit]; rfl
  unfold uploadChunked
  rw [hdo, hp, hc]; rfl

theorem uploadChunked_eq_of_completeOk (srv : Server) (file : Bytes) (b : Bytes)
    (tr : List Event) (s2 : Nat) (b2 : Bytes)
    (hinit : srv.initResult = .resp 200 b)
    (hp : chunkLoopFrom srv (srv.initUploadID.getD "") file
      (List.range (totalChunksOf file.length)) = (tr, none))
    (hc : doRequest srv.completeResult = .ok (s2, b2)) :
    uploadChunked srv file =
      (if s2 ≠ 200 then
        (Event.initReq (totalChunksOf file.length) file.length ::
          (tr ++ [Event.completeReq (srv.initUploadID.getD "")]),
          .err (.completeHTTP s2 b2))
      else
        (Event.initReq (totalChunksOf file.length) file.length ::
          (tr ++ [Event.completeReq (srv.initUploadID.getD "")]), .ok ())) := by
  have hdo : doRequest srv.initResult = .ok (200, b) := by rw [hinit]; rfl
  unfold uploadChunked
  rw [hdo, hp, hc]; rfl

/-- C1 as stated is false on the code: for a chunk whose first two
attempts fail and whose third succeeds, the sleeps performed before the
2nd and 3rd attempts are 4 and 8 seconds, not the claimed 2 and 4. -/
theorem claim1_backoff_counterexample :
    sleepsOf (chunkRetry resFailTwice (fun a => Event.chunkReq "u" 0 a [7])).1 = [4, 8] ∧
    sleepsOf (chunkRetry resFailTwice (fun a => Event.chunkReq "u" 0 a [7])).1 ≠ [2, 4] := by
  decide

/-- C1 (amended): in the chunked upload every chunk is attempted at most
3 times (and at least once), all attempts resend the identical upload
id, chunk index and payload, and before the 2nd and 3rd attempts of a
failing chunk the client sleeps 4 and then 8 seconds (backoff
`2 * 2^attempt` seconds for the 0-based upcoming attempt): the sleep
durations are the prefix of [4, 8] of length one less than the number
of attempts made. -/
theorem claim1_retry_backoff (res : Nat → Option GoErr) (uploadID : String)
    (i : Nat) (data : Bytes) :
    ∃ n, 1 ≤ n ∧ n ≤ 3 ∧
      ((chunkRetry res (fun a => Event.chunkReq uploadID i a data)).1.filter
          fun e => !e.isSleep) =
        (List.range n).map (fun a => Event.chunkReq uploadID i a data) ∧
      sleepsOf (chunkRetry res (fun a => Event.chunkReq uploadID i a data)).1 =
        List.take (n - 1) [4, 8] := by
  rcases h0 : res 0 with _ | e0 <;> rcases h1 : res 1 with _ | e1 <;>
      rcases h2 : res 2 with _ | e2 <;>
      rw [chunkRetry_shape] <;> simp only [h0, h1, h2] <;>
    first
      | (refine ⟨1, ?_, ?_, ?_, ?_⟩ <;>
          (simp [Event.isSleep, sleepsOf, List.range_succ]; done))
      | (refine ⟨2, ?_, ?_, ?_, ?_⟩ <;>
          (simp [Event.isSleep, sleepsOf, List.range_succ]; done))
      | (refine ⟨3, ?_, ?_, ?_, ?_⟩ <;>
          (simp [Event.isSleep, sleepsOf, List.range_succ]; done))

/-- C5 as stated is false on the code: a 401 response to a per-chunk
upload request does not terminate the process; the chunk is retried on
all 3 attempts and the 401 is then propagated as the generic chunk
failure error. -/
theorem claim5_chunk401_counterexample :
    (uploadChunked srv401 [7]).2 = .err (.chunkFailed 0 3 (.httpErr 401 [9])) ∧
    (uploadChunked srv401 [7]).2 ≠ .exit 1 ∧
    ((uploadChunked srv401 [7]).1.filter fun e => e.isChunkReq).length = 3 := by
  decide

/-- C5 (amended): every request issued through doRequest and the
single-request upload terminate the process immediately on a 401
response, while the per-chunk upload request returns the 401 as the
generic HTTP error, which the retry loop treats like any other failure:
it retries the chunk and finally propagates the 401 error. -/
theorem claim5_auth_handling (b : Bytes) (file : Bytes) :
    doRequest (.resp 401 b) = .exit 1 ∧
    (uploadSingleWithProgress (.resp 401 b) file).2 = .exit 1 ∧
    uploadOneChunk (.resp 401 b) = some (.httpErr 401 b) ∧
    ∀ ev : Nat → Event,
      (chunkRetry (fun _ => uploadOneChunk (.resp 401 b)) ev).2 =
        some (.httpErr 401 b) := by
  refine ⟨rfl, rfl, rfl, fun ev => ?_⟩
  rw [chunkRetry_shape]
  rfl

/-- C6 as stated is false on the code: when the compressor wait fails,
generateAndUploadDB returns that error immediately and the drush
producer stage is never waited on. -/
theorem claim6_wait_counterexample :
    generateAndUploadDBWaits none (some (.exitStatus 1)) none =
      ([Stage.compressor], some (.compressorFailed (.exitStatus 1))) ∧
    Stage.drush ∉
      (generateAndUploadDBWaits none (some (.exitStatus 1)) none).1 :=
  ⟨rfl, by decide⟩

/-- C6 (amended): the first non-nil stage error becomes the overall
result, but stages after a failed wait are not waited on: a compressor
wait failure is returned with only the compressor waited; only when the
compressor wait succeeds are both stages waited, in the order
compressor then drush, with a drush error propagated. -/
theorem claim6_first_error_stops_waiting (ce de : Option GoErr) :
    (∀ e, ce = some e →
      generateAndUploadDBWaits none ce de =
        ([Stage.compressor], some (.compressorFailed e))) ∧
    (ce = none →
      (generateAndUploadDBWaits none ce de).1 = [Stage.compressor, Stage.drush] ∧
      (generateAndUploadDBWaits none ce de).2 = de.map .drushFailed) := by
  constructor
  · rintro e rfl
    rfl
  · rintro rfl
    rcases de with _ | e <;> exact ⟨rfl, rfl⟩

/-- Witness for the amended C6: a concrete compressor failure leaves
drush unwaited and becomes the result. -/
theorem claim6_first_error_stops_waiting_witness :
    generateAndUploadDBWaits none (some GoErr.netErr) none =
      ([Stage.compressor], some (.compressorFailed GoErr.netErr)) :=
  (claim6_first_error_stops_waiting (some GoErr.netErr) none).1 GoErr.netErr rfl

/-- C7: if the producer (drush) exited non-zero, discovered after its
stream was drained, while the upload and the compressor wait both
succeeded, the producer failure is the overall command result, and the
waits happen in reverse pipeline order: compressor first, then drush. -/
theorem claim7_producer_failure_propagates (e : GoErr) :
    generateAndUploadDBWaits none none (some e) =
      ([Stage.compressor, Stage.drush], some (.drushFailed e)) := rfl

/-- C8: when staging the pipeline output to the temporary file fails
(temp-file creation or the copy, e.g. disk full), UploadBaseFileChunked
aborts with the staging error and the event trace is empty: no init,
chunk, complete or single-request call is ever issued. -/
theorem claim8_staging_failure_no_network (srv : Server) (singleRes : ReqResult) :
    UploadBaseFileChunked srv singleRes .copyFail = ([], .err .bufferFailed) ∧
    UploadBaseFileChunked srv singleRes .createFail = ([], .err .tempCreateFailed) :=
  ⟨rfl, rfl⟩

/-- C9 as stated is false on the code at status 401: doRequest
terminates the process before DownloadStream returns, so the pull
command never removes the destination file it created — after this
non-200 response the (empty) destination file still exists. -/
theorem claim9_download_counterexample :
    pullDBCmd true (.resp 401 [1]) = (FsState.present [], .exit 1) ∧
    (pullDBCmd true (.resp 401 [1])).1 ≠ FsState.absent :=
  ⟨rfl, by decide⟩

/-- C9 (amended): on a non-200 response other than 401 the download
fails with the error carrying the status and body, nothing from the
error response is written to the sink, and the pull command removes the
destination file, so it does not exist afterwards (a 401 instead
terminates the process, leaving the just-created empty file behind). -/
theorem claim9_download_cleanup (s : Nat) (b : Bytes)
    (hs : s ≠ 200) (h401 : s ≠ 401) :
    DownloadStream (.resp s b) = ([], .err (.httpErr s b)) ∧
    pullDBCmd true (.resp s b) = (.absent, .err (.httpErr s b)) := by
  have hdo : doRequest (.resp s b) = .ok (s, b) := by
    show (if s = 401 then DoResult.exit 1 else DoResult.ok (s, b)) = DoResult.ok (s, b)
    rw [if_neg h401]
  have hd : DownloadStream (.resp s b) = ([], .err (.httpErr s b)) := by
    unfold DownloadStream
    rw [hdo]
    simp [hs]
  refine ⟨hd, ?_⟩
  unfold pullDBCmd
  rw [hd]
  rfl

/-- Witness for the amended C9 at status 500. -/
theorem claim9_download_cleanup_witness :
    (500 : Nat) ≠ 200 ∧ (500 : Nat) ≠ 401 ∧
    pullDBCmd true (.resp 500 [1, 2]) = (.absent, .err (.httpErr 500 [1, 2])) :=
  ⟨by decide, by decide,
    (claim9_download_cleanup 500 [1, 2] (by decide) (by decide)).2⟩

/-- C2: for every staged payload, UploadBaseFileChunked takes the
single-request path when the size is below the 50 MiB chunk size (its
trace is exactly the one single-request upload) and the chunked path
otherwise, whose first event is the init request announcing
totalChunks = ceil(size / chunkSize) chunks: totalChunks is
characterized by chunkSize*(totalChunks-1) < size ≤ chunkSize*totalChunks,
with chunkSize = 50 MiB. -/
theorem claim2_size_threshold (srv : Server) (singleRes : ReqResult) (file : Bytes) :
    (file.length < chunkSize →
      UploadBaseFileChunked srv singleRes (.ok file) =
        uploadSingleWithProgress singleRes file ∧
      (UploadBaseFileChunked srv singleRes (.ok file)).1 = [Event.singleReq file]) ∧
    (chunkSize ≤ file.length →
      UploadBaseFileChunked srv singleRes (.ok file) = uploadChunked srv file ∧
      (uploadChunked srv file).1.head? =
        some (Event.initReq (totalChunksOf file.length) file.length) ∧
      chunkSize * (totalChunksOf file.length - 1) < file.length ∧
      file.length ≤ chunkSize * totalChunksOf file.length ∧
      chunkSize = 50 * 1024 * 1024) := by
  constructor
  · intro h
    have he : UploadBaseFileChunked srv singleRes (.ok file) =
        uploadSingleWithProgress singleRes file := by
      show (if file.length < chunkSize then uploadSingleWithProgress singleRes file
        else uploadChunked srv file) = uploadSingleWithProgress singleRes file
      rw [if_pos h]
    exact ⟨he, by rw [he]; rfl⟩
  · intro h
    have hnl : ¬ file.length < chunkSize := by omega
    have he : UploadBaseFileChunked srv singleRes (.ok file) =
        uploadChunked srv file := by
      show (if file.length < chunkSize then uploadSingleWithProgress singleRes file
        else uploadChunked srv file) = uploadChunked srv file
      rw [if_neg hnl]
    have h1 : 1 ≤ file.length := le_trans (by norm_num [chunkSize]) h
    exact ⟨he, uploadChunked_head srv file, (totalChunks_bounds _ h1).1,
      (totalChunks_bounds _ h1).2, rfl⟩

/-- Witness for C2: a 1-byte payload takes the single-request path and
a payload of exactly chunkSize bytes takes the chunked path. -/
theorem claim2_size_threshold_witness :
    (([7] : Bytes).length < chunkSize ∧
      UploadBaseFileChunked srvOK (.resp 200 []) (.ok [7]) =
        uploadSingleWithProgress (.resp 200 []) [7]) ∧
    (chunkSize ≤ (List.replicate chunkSize 0 : Bytes).length ∧
      UploadBaseFileChunked srvOK (.resp 200 []) (.ok (List.replicate chunkSize 0)) =
        uploadChunked srvOK (List.replicate chunkSize 0)) := by
  have h1 : ([7] : Bytes).length < chunkSize := by simp [chunkSize]
  have h2 : chunkSize ≤ (List.replicate chunkSize 0 : Bytes).length := by
    simp
  exact ⟨⟨h1, ((claim2_size_threshold srvOK (.resp 200 []) [7]).1 h1).1⟩,
    ⟨h2, ((claim2_size_threshold srvOK (.resp 200 [])
      (List.replicate chunkSize 0)).2 h2).1⟩⟩

/-- C3: for any staged file of at least one byte the chunk partition is
exact: the payloads the chunk loop reads concatenate in index order
back to the staged file byte-for-byte; their lengths sum to the file
size; the last chunk is bytes from offset (totalChunks-1)*chunkSize and
has length size - chunkSize*(totalChunks-1), which is positive and at
most chunkSize; and every chunk request in the uploadChunked trace with
index i carries exactly bytes [i*chunkSize, i*chunkSize+chunkSize) of
the file. -/
theorem claim3_partition_exact (srv : Server) (file : Bytes)
    (h1 : 1 ≤ file.length) :
    (chunkPayloads file).flatten = file ∧
    ((chunkPayloads file).map List.length).sum = file.length ∧
    (chunkPayloads file).getLast? =
      some ((file.drop ((totalChunksOf file.length - 1) * chunkSize)).take chunkSize) ∧
    ((file.drop ((totalChunksOf file.length - 1) * chunkSize)).take chunkSize).length =
      file.length - chunkSize * (totalChunksOf file.length - 1) ∧
    0 < file.length - chunkSize * (totalChunksOf file.length - 1) ∧
    file.length - chunkSize * (totalChunksOf file.length - 1) ≤ chunkSize ∧
    ∀ id i a p, Event.chunkReq id i a p ∈ (uploadChunked srv file).1 →
      p = (file.drop (i * chunkSize)).take chunkSize := by
  obtain ⟨hlow, hup⟩ := totalChunks_bounds file.length h1
  have htc : 0 < totalChunksOf file.length := by
    rcases Nat.eq_zero_or_pos (totalChunksOf file.length) with h | h
    · rw [h, Nat.mul_zero] at hup
      omega
    · exact h
  have hup' : file.length ≤ chunkSize * (totalChunksOf file.length - 1) + chunkSize := by
    calc file.length ≤ chunkSize * totalChunksOf file.length := hup
    _ = chunkSize * (totalChunksOf file.length - 1) + chunkSize := by
        rw [← Nat.mul_succ]
        congr 1
        omega
  have hflat : (chunkPayloads file).flatten = file :=
    flatten_chunks chunkSize (totalChunksOf file.length) file
      (by rw [Nat.mul_comm]; exact hup)
  have hsum : ((chunkPayloads file).map List.length).sum = file.length := by
    have hlen := congrArg List.length hflat
    rwa [List.length_flatten] at hlen
  have hlast : (chunkPayloads file).getLast? =
      some ((file.drop ((totalChunksOf file.length - 1) * chunkSize)).take chunkSize) := by
    have hsucc : totalChunksOf file.length = (totalChunksOf file.length - 1) + 1 := by
      omega
    rw [chunkPayloads]
    conv_lhs => rw [hsucc]
    rw [List.range_succ, List.map_append]
    simp
  have hlastlen : ((file.drop ((totalChunksOf file.length - 1) * chunkSize)).take
      chunkSize).length = file.length - chunkSize * (totalChunksOf file.length - 1) := by
    rw [List.length_take, List.length_drop,
      Nat.mul_comm (totalChunksOf file.length - 1) chunkSize]
    omega
  refine ⟨hflat, hsum, hlast, hlastlen, by omega, by omega, ?_⟩
  intro id i a p hmem
  rcases uploadChunked_events srv file _ hmem with h | h | ⟨s, h⟩ | ⟨i', a', hi', ha', h⟩
  · exact Event.noConfusion h
  · exact Event.noConfusion h
  · exact Event.noConfusion h
  · simp only [Event.chunkReq.injEq] at h
    obtain ⟨-, hii, -, hp⟩ := h
    subst hii
    exact hp

/-- Witness for C3 at a concrete 1-byte staged file. -/
theorem claim3_partition_exact_witness :
    (1 : Nat) ≤ ([7] : Bytes).length ∧ (chunkPayloads ([7] : Bytes)).flatten = [7] :=
  ⟨by decide, (claim3_partition_exact srvOK [7] (by decide)).1⟩

/-- C4: when init succeeded but chunk j fails on all 3 of its attempts
(and every earlier chunk eventually succeeded), the chunked upload
aborts with the error naming index j and the 3 attempts; the complete
request is never sent, and the whole trace consists solely of the init
request, sleeps and chunk requests — in particular no session-abort
request of any kind is issued. -/
theorem claim4_chunk_exhaustion_aborts (srv : Server) (file : Bytes) (b : Bytes)
    (j : Nat)
    (hinit : srv.initResult = .resp 200 b)
    (hj : j < totalChunksOf file.length)
    (hfail : allFail srv j = true)
    (hbefore : ∀ i, i < j → allFail srv i = false) :
    ∃ e, (uploadChunked srv file).2 = .err (.chunkFailed j 3 e) ∧
      (∀ id, Event.completeReq id ∉ (uploadChunked srv file).1) ∧
      ∀ ev ∈ (uploadChunked srv file).1,
        ev = Event.initReq (totalChunksOf file.length) file.length ∨
        (∃ s, ev = Event.sleep s) ∨
        ∃ id i a p, ev = Event.chunkReq id i a p := by
  have hrange : List.range (totalChunksOf file.length) =
      List.range j ++ j :: ((List.range (totalChunksOf file.length - (j + 1))).map
        fun k => j + 1 + k) := by
    have h' : totalChunksOf file.length =
        (j + 1) + (totalChunksOf file.length - (j + 1)) := by omega
    conv_lhs => rw [h']
    rw [List.range_add, List.range_succ]
    simp [List.append_assoc]
  obtain ⟨e, he⟩ := chunkLoopFrom_firstFail srv (srv.initUploadID.getD "") file
    (List.range j) j
    ((List.range (totalChunksOf file.length - (j + 1))).map fun k => j + 1 + k)
    (fun i hi => hbefore i (List.mem_range.mp hi)) hfail
  rw [← hrange] at he
  rcases hp : chunkLoopFrom srv (srv.initUploadID.getD "") file
      (List.range (totalChunksOf file.length)) with ⟨tr, r⟩
  rw [hp] at he
  simp only at he
  subst he
  have hu := uploadChunked_eq_of_loopErr srv file b tr _ hinit hp
  refine ⟨e, by rw [hu], ?_, ?_⟩
  · intro id hmem
    rw [hu] at hmem
    rcases List.mem_cons.mp hmem with h | h
    · exact Event.noConfusion h
    · have hev : Event.completeReq id ∈ (chunkLoopFrom srv (srv.initUploadID.getD "")
          file (List.range (totalChunksOf file.length))).1 := by
        rw [hp]
        exact h
      rcases chunkLoopFrom_events srv _ file _ _ hev with ⟨s, hs⟩ | ⟨i', a', _, _, hcc⟩
      · exact Event.noConfusion hs
      · exact Event.noConfusion hcc
  · intro ev hmem
    rw [hu] at hmem
    rcases List.mem_cons.mp hmem with rfl | h
    · exact Or.inl rfl
    · have hev : ev ∈ (chunkLoopFrom srv (srv.initUploadID.getD "") file
          (List.range (totalChunksOf file.length))).1 := by
        rw [hp]
        exact h
      rcases chunkLoopFrom_events srv _ file _ _ hev with ⟨s, hs⟩ | ⟨i', a', _, _, hcc⟩
      · exact Or.inr (Or.inl ⟨s, hs⟩)
      · exact Or.inr (Or.inr ⟨_, i', a', _, hcc⟩)

/-- Witness for C4: a server answering 500 on every chunk attempt, with
a 1-byte staged file (one chunk, index 0). -/
theorem claim4_chunk_exhaustion_aborts_witness :
    srv500.initResult = ReqResult.resp 200 [] ∧
    0 < totalChunksOf ([7] : Bytes).length ∧
    allFail srv500 0 = true ∧
    (∃ e, (uploadChunked srv500 [7]).2 = .err (.chunkFailed 0 3 e) ∧
      (∀ id, Event.completeReq id ∉ (uploadChunked srv500 [7]).1) ∧
      ∀ ev ∈ (uploadChunked srv500 [7]).1,
        ev = Event.initReq (totalChunksOf ([7] : Bytes).length) ([7] : Bytes).length ∨
        (∃ s, ev = Event.sleep s) ∨
        ∃ id i a p, ev = Event.chunkReq id i a p) :=
  ⟨rfl, by decide, by decide,
    claim4_chunk_exhaustion_aborts srv500 [7] [] 0 rfl (by decide) (by decide)
      (fun i hi => absurd hi (Nat.not_lt_zero i))⟩

/-- C10: if the init call returns status 200 but its response body does
not decode to an upload id, the chunked upload does not fail at init:
the decode error is discarded, and every chunk request and the complete
request in the trace carry the empty upload id string. -/
theorem claim10_empty_uploadID (srv : Server) (file : Bytes) (b : Bytes)
    (hinit : srv.initResult = .resp 200 b)
    (hdec : srv.initUploadID = none) :
    (∀ e, (uploadChunked srv file).2 ≠ .err (.initFailed e)) ∧
    (∀ s bb, (uploadChunked srv file).2 ≠ .err (.initHTTP s bb)) ∧
    (∀ id i a p, Event.chunkReq id i a p ∈ (uploadChunked srv file).1 → id = "") ∧
    (∀ id, Event.completeReq id ∈ (uploadChunked srv file).1 → id = "") := by
  have hres : (∀ e, (uploadChunked srv file).2 ≠ .err (.initFailed e)) ∧
      (∀ s bb, (uploadChunked srv file).2 ≠ .err (.initHTTP s bb)) := by
    rcases hp : chunkLoopFrom srv (srv.initUploadID.getD "") file
        (List.range (totalChunksOf file.length)) with ⟨tr, r⟩
    rcases r with _ | e
    · rcases hc : doRequest srv.completeResult with ⟨s2, b2⟩ | e2 | c2
      · rw [uploadChunked_eq_of_completeOk srv file b tr s2 b2 hinit hp hc]
        constructor
        · intro e
          split_ifs <;> simp
        · intro s bb
          split_ifs <;> simp
      · rw [uploadChunked_eq_of_completeErr srv file b tr e2 hinit hp hc]
        exact ⟨fun e => by simp, fun s bb => by simp⟩
      · rw [uploadChunked_eq_of_completeExit srv file b tr c2 hinit hp hc]
        exact ⟨fun e => by simp, fun s bb => by simp⟩
    · have hshape := chunkLoopFrom_err srv (srv.initUploadID.getD "") file
        (List.range (totalChunksOf file.length))
      rw [hp] at hshape
      simp only at hshape
      rcases hshape with h | ⟨j, e', hj, he'⟩
      · exact Option.noConfusion h
      · have heq : e = .chunkFailed j 3 e' := by
          injection he'
        subst heq
        rw [uploadChunked_eq_of_loopErr srv file b tr _ hinit hp]
        exact ⟨fun e2 => by simp, fun s bb => by simp⟩
  refine ⟨hres.1, hres.2, ?_, ?_⟩
  · intro id i a p hmem
    rcases uploadChunked_events srv file _ hmem with h | h | ⟨s, h⟩ | ⟨i', a', _, _, h⟩
    · exact Event.noConfusion h
    · exact Event.noConfusion h
    · exact Event.noConfusion h
    · simp only [Event.chunkReq.injEq] at h
      rw [h.1, hdec]
      rfl
  · intro id hmem
    rcases uploadChunked_events srv file _ hmem with h | h | ⟨s, h⟩ | ⟨i', a', _, _, h⟩
    · exact Event.noConfusion h
    · simp only [Event.completeReq.injEq] at h
      rw [h, hdec]
      rfl
    · exact Event.noConfusion h
    · exact Event.noConfusion h

/-- Witness for C10: the no-upload-id server with a 1-byte file. -/
theorem claim10_empty_uploadID_witness :
    srvNoID.initResult = ReqResult.resp 200 [] ∧ srvNoID.initUploadID = none ∧
    ∀ id i a p, Event.chunkReq id i a p ∈ (uploadChunked srvNoID [7]).1 → id = "" :=
  ⟨rfl, rfl, (claim10_empty_uploadID srvNoID [7] [] rfl rfl).2.2.1⟩
